import Mathlib

/-!
Shallow embedding of the MOSDAC-SIMPLIFIED retrieval-augmented-generation
core (pdf_processor.py, vector_store.py, rag_engine.py) and proofs about it.

Conventions of the embedding:
- Python strings are Lean `String`s; where the code does character-level work
  (splitting, stripping, substring tests) we work on `List Char`.
- Machine floats are modelled as `ℚ`; the opaque neural embedding model
  (`SentenceTransformer.encode` followed by `faiss.normalize_L2`) is an
  uninterpreted function field `embed : String → Except String (List ℚ)`,
  fallible because the Python call can raise at query time.
- A Python function that can raise an uncaught exception is modelled with
  `Except String α`; `.error e` is an exception propagating to the caller.
- The faiss `IndexFlatIP` is modelled by the list of stored vectors; its
  `search` returns the top-k entries by inner product in descending order and,
  exactly as faiss does when fewer than k entries exist, pads the remaining
  slots with label `-1` and the minimal sentinel score (faiss uses -inf /
  -FLT_MAX there), modelled by `FVal.negInf`.
-/

/-- Python whitespace test for `str.split()` / `str.strip()` (ASCII range). -/
def isPySpace (c : Char) : Bool :=
  c == ' ' || c == '\t' || c == '\n' || c == '\r' || c == '\x0B' || c == '\x0C'

/-- Python `s.strip()` on a character list. -/
def pyStrip (l : List Char) : List Char :=
  ((l.dropWhile isPySpace).reverse.dropWhile isPySpace).reverse

/-- Python `s.strip()` on a `String`. -/
def pyStripStr (s : String) : String :=
  ⟨pyStrip s.data⟩

/-- Python `str.lower()` on one character, for the ASCII letters (the only
characters the weather lexicon test is sensitive to). -/
def pyCharLower (c : Char) : Char :=
  if 65 ≤ c.toNat ∧ c.toNat ≤ 90 then Char.ofNat (c.toNat + 32) else c

/-- Python `s.lower()` on a `String`. -/
def pyLowerStr (s : String) : String :=
  ⟨s.data.map pyCharLower⟩

/-- Python substring test `needle in hay` on character lists. -/
def strContains (hay needle : List Char) : Bool :=
  match hay with
  | [] => needle.isEmpty
  | _ :: t => needle.isPrefixOf hay || strContains t needle

/-- Helper for `pyLen`. -/
def pyLenGo (n : Nat) : List α → Nat
  | [] => n
  | _ :: t => pyLenGo (n + 1) t

/-- Python `len(l)`: list length, accumulator-based so that it evaluates
iteratively inside the kernel. -/
def pyLen (l : List α) : Nat :=
  pyLenGo 0 l

/-- Python list indexing `l[i]` with negative-index wrap-around; `none` is an
IndexError. -/
def pyGet (l : List α) (i : Int) : Option α :=
  if i < 0 then
    if (-i).toNat ≤ l.length then l[(l.length - (-i).toNat)]? else none
  else l[i.toNat]?

/-- Python `s.split(sep)` for a non-empty separator, on character lists.
Fuel-based so that the definition reduces in the kernel; the fuel is the
length of the text, which one scan never exhausts. -/
def splitOnGo (sep : List Char) : Nat → List Char → List Char → List (List Char)
  | 0, rest, acc => [acc.reverse ++ rest]
  | fuel + 1, rest, acc =>
    match rest with
    | [] => [acc.reverse]
    | c :: t =>
      if sep.isPrefixOf rest then
        acc.reverse :: splitOnGo sep fuel (rest.drop sep.length) []
      else
        splitOnGo sep fuel t (c :: acc)

/-- Python `s.split(sep)` (non-empty `sep`). -/
def splitOnChars (sep text : List Char) : List (List Char) :=
  splitOnGo sep (pyLen text) text []

/-- Helper for `splitWs`: current in-progress word is `acc` (reversed). -/
def splitWsGo : List Char → List Char → List (List Char)
  | [], acc => if acc.isEmpty then [] else [acc.reverse]
  | c :: t, acc =>
    if isPySpace c then
      if acc.isEmpty then splitWsGo t [] else acc.reverse :: splitWsGo t []
    else splitWsGo t (c :: acc)

/-- Python `s.split()` with no argument: split on whitespace runs, dropping
empty pieces. -/
def splitWs (l : List Char) : List (List Char) :=
  splitWsGo l []

/-- Python `sep.join(pieces)` on character lists. -/
def joinWith (sep : List Char) : List (List Char) → List Char
  | [] => []
  | [x] => x
  | x :: t => x ++ sep ++ joinWith sep t

/-- Python `range(0, n, step)` for `step > 0` (the code never calls it
otherwise; Python would raise for `step = 0`). -/
def pyRange (n step : Nat) : List Nat :=
  (List.range ((n + step - 1) / step)).map (· * step)

/-- Stable insertion into a descending list: `x` (the earlier element) goes
before the first element it is not strictly below, matching Python's stable
`sort(reverse=True)` and faiss's deterministic result ordering. -/
def insertDescBy (lt : α → α → Bool) (x : α) : List α → List α
  | [] => [x]
  | y :: t => if lt x y then y :: insertDescBy lt x t else x :: y :: t

/-- Stable descending sort. -/
def sortDescBy (lt : α → α → Bool) : List α → List α
  | [] => []
  | x :: t => insertDescBy lt x (sortDescBy lt t)

/-- A similarity score as produced by faiss: either a real inner-product
value, or the `-inf` sentinel faiss writes into padding slots when fewer than
k entries exist. -/
inductive FVal where
  | fin (x : ℚ) : FVal
  | negInf : FVal
deriving DecidableEq, Repr

/-- Boolean strict order on faiss scores (`negInf` below every finite value). -/
def FVal.ltb : FVal → FVal → Bool
  | .negInf, .negInf => false
  | .negInf, .fin _ => true
  | .fin _, .negInf => false
  | .fin a, .fin b => decide (a < b)

/-- Inner product of two embedding vectors. -/
def dot (u v : List ℚ) : ℚ :=
  ((u.zipWith (· * ·) v).foldl (· + ·) 0)

/-- Metadata dictionary attached to a stored chunk (Python `dict`). -/
abbrev Meta := List (String × String)

/-! ### faiss.IndexFlatIP -/

/-- The faiss flat inner-product index: dimension plus the stored vectors in
insertion order. -/
structure FaissIndexFlatIP where
  d : Nat
  xb : List (List ℚ)
deriving Repr

/-- `index.add(embeddings)`: append the vectors. -/
def FaissIndexFlatIP.add (idx : FaissIndexFlatIP) (vecs : List (List ℚ)) :
    FaissIndexFlatIP :=
  { idx with xb := idx.xb ++ vecs }

/-- `index.ntotal`. -/
def FaissIndexFlatIP.ntotal (idx : FaissIndexFlatIP) : Nat :=
  idx.xb.length

/-- `index.search(q, k)`: the k (score, label) pairs, best first; ties broken
by insertion order; slots beyond `ntotal` padded with `(-inf, -1)` exactly as
faiss pads missing results. -/
def FaissIndexFlatIP.search (idx : FaissIndexFlatIP) (q : List ℚ) (k : Nat) :
    List (FVal × Int) :=
  let scored : List (FVal × Int) :=
    idx.xb.enum.map fun p => (FVal.fin (dot q p.2), (p.1 : Int))
  let top := (sortDescBy (fun a b => FVal.ltb a.1 b.1) scored).take k
  top ++ List.replicate (k - top.length) (FVal.negInf, (-1 : Int))

/-! ### vector_store.py -/

/-- On-disk artifact written by `faiss.write_index` / read by
`faiss.read_index`; `corrupt` is a malformed file on which reading raises. -/
inductive IndexArtifact where
  | good (d : Nat) (xb : List (List ℚ)) : IndexArtifact
  | corrupt : IndexArtifact
deriving Repr

/-- On-disk pickle artifact holding the texts/metadata side table; `corrupt`
is a malformed file on which `pickle.load` raises. -/
inductive DataArtifact where
  | good (texts : List String) (metadata : List Meta) : DataArtifact
  | corrupt : DataArtifact
deriving Repr

/-- The file system as seen by save/load: the `{filepath}.index` and
`{filepath}.data` files, keyed by the `filepath` stem. -/
structure FS where
  idx : List (String × IndexArtifact)
  dat : List (String × DataArtifact)
deriving Repr

def FS.empty : FS := ⟨[], []⟩

def FS.readIdx (fs : FS) (fp : String) : Option IndexArtifact :=
  (fs.idx.find? fun p => p.1 == fp).map (·.2)

def FS.readDat (fs : FS) (fp : String) : Option DataArtifact :=
  (fs.dat.find? fun p => p.1 == fp).map (·.2)

/-- VectorStore state: the opaque embedding model (encode + normalize_L2,
fallible at call time), the fixed dimension, and the three parallel
containers. -/
structure VectorStore where
  embed : String → Except String (List ℚ)
  dimension : Nat := 384
  index : Option FaissIndexFlatIP := none
  texts : List String := []
  metadata : List Meta := []

/-- `VectorStore.create_index`: replace the index with a fresh empty
`IndexFlatIP`; note the code does not touch `texts`/`metadata`. -/
def VectorStore.create_index (s : VectorStore) : VectorStore :=
  { s with index := some ⟨s.dimension, []⟩ }

/-- `model.encode(texts)` on a batch: one embedding per text, in order;
equivalent to encoding the texts one at a time (spec §4.2); an exception
raised on any text propagates. -/
def embedBatch (f : String → Except String (List ℚ)) :
    List String → Except String (List (List ℚ))
  | [] => .ok []
  | t :: ts =>
    match f t with
    | .error e => .error e
    | .ok v =>
      match embedBatch f ts with
      | .error e => .error e
      | .ok vs => .ok (v :: vs)

/-- `VectorStore.add_texts(texts, metadata=None)`: create the index when
absent, embed the batch, append vectors and the two side tables. Python's
`if metadata:` is false for both `None` and `[]`, in which case `{}` records
are padded in. An embedding exception propagates (after the possible
`create_index` side effect). -/
def VectorStore.add_texts (s₀ : VectorStore) (texts : List String)
    (metadata : Option (List Meta) := none) : Except String VectorStore :=
  let s := if s₀.index.isNone then s₀.create_index else s₀
  (embedBatch s.embed texts).map fun embs =>
    let idx := match s.index with
      | some i => i.add embs
      | none => FaissIndexFlatIP.add ⟨s.dimension, []⟩ embs  -- unreachable
    { s with
        index := some idx
        texts := s.texts ++ texts
        metadata := s.metadata ++
          (match metadata with
            | some m => if m.isEmpty then List.replicate texts.length ([] : Meta) else m
            | none => List.replicate texts.length ([] : Meta)) }

/-- `VectorStore.search(query, k)`: empty store short-circuits to `[]`;
otherwise embed the query (a raising model propagates), run faiss, and keep
the pairs whose label passes `idx < len(self.texts)` — which Python's
negative indexing lets the faiss padding label `-1` pass, reading the *last*
entry. A `pyGet` miss would be a Python IndexError, unreachable for
faiss-produced labels. -/
def VectorStore.search (s : VectorStore) (query : String) (k : Nat) :
    Except String (List (String × FVal × Meta)) :=
  match s.index with
  | none => .ok []
  | some idx =>
    if s.texts.length == 0 then .ok []
    else
      match s.embed query with
      | .error e => .error e
      | .ok q =>
        let pairs := idx.search q k
        .ok (pairs.filterMap fun p =>
          if p.2 < (s.texts.length : Int) then
            match pyGet s.texts p.2, pyGet s.metadata p.2 with
            | some t, some m => some (t, p.1, m)
            | _, _ => none
          else none)

/-- `VectorStore.save(filepath)`: when an index exists, write the faiss file
and the pickled side table (overwriting); otherwise do nothing. -/
def VectorStore.save (s : VectorStore) (fp : String) (fs : FS) : FS :=
  match s.index with
  | none => fs
  | some i =>
    { idx := (fp, IndexArtifact.good i.d i.xb) :: fs.idx
      dat := (fp, DataArtifact.good s.texts s.metadata) :: fs.dat }

/-- `VectorStore.load(filepath)`: when both files exist, read them with no
exception handling — a malformed file raises out of `load`; when either is
missing, return `False` leaving the store unchanged. -/
def VectorStore.load (s : VectorStore) (fp : String) (fs : FS) :
    Except String (Bool × VectorStore) :=
  match fs.readIdx fp, fs.readDat fp with
  | some ia, some da =>
    match ia with
    | .corrupt => .error "faiss.read_index failed"
    | .good d xb =>
      match da with
      | .corrupt => .error "pickle.load failed"
      | .good ts ms =>
        .ok (true, { s with index := some ⟨d, xb⟩, texts := ts, metadata := ms })
  | _, _ => .ok (false, s)

/-! ### pdf_processor.py -/

/-- The page-marker concatenation built inside `PDFProcessor.extract_text`:
`text += f"\n--- Page {page_num + 1} ---\n{page_text}\n"` (string
concatenation written out on the underlying character lists). -/
def buildPdfText (pages : List String) : String :=
  ⟨(pages.enum.map fun p =>
      "\n--- Page ".data ++ (toString (p.1 + 1)).data ++ " ---\n".data ++
        p.2.data ++ "\n".data).flatten⟩

/-- `PDFProcessor.extract_text`: the PyPDF2 read of the document either
yields the per-page texts or raises; the catch-all `except` reports the error
via `st.error` and returns `""` — the function itself never raises. -/
def extract_text (doc : Except String (List String)) : String :=
  match doc with
  | .ok pages => buildPdfText pages
  | .error _ => ""

/-- The `f"Page {i}: "` tag prepended to every chunk. -/
def pageTag (i : Nat) : List Char :=
  ("Page " ++ toString i ++ ": ").data

/-- `PDFProcessor.get_text_chunks(chunk_size, overlap)` applied to the
extracted text: split on `"--- Page"`, and for each page either emit it whole
(when at most `chunk_size` *characters*) or stride through its whitespace
words in steps of `chunk_size - overlap`, taking `chunk_size` words per
chunk and dropping chunks that strip to empty. -/
def get_text_chunks (text : List Char) (chunk_size overlap : Nat) :
    List (List Char) :=
  let page_splits := splitOnChars ("--- Page".data) text
  (page_splits.drop 1).enum.flatMap fun p =>
    let i := p.1 + 1
    let page_content := p.2
    if pyLen page_content > chunk_size then
      let words := splitWs page_content
      (pyRange (pyLen words) (chunk_size - overlap)).flatMap fun j =>
        let chunk := joinWith [' '] ((words.drop j).take chunk_size)
        if (pyStrip chunk).isEmpty then [] else [pageTag i ++ pyStrip chunk]
    else
      if (pyStrip page_content).isEmpty then [] else [pageTag i ++ pyStrip page_content]

/-- Number of emitted chunks carrying a given page tag. -/
def chunkCountForPage (chunks : List (List Char)) (i : Nat) : Nat :=
  pyLen (chunks.filter fun c => (pageTag i).isPrefixOf c)

/-! ### rag_engine.py -/

/-- The dictionary `RAGEngine.query` returns. -/
structure QueryResult where
  question : String
  response : String
  relevant_docs : List String
  num_docs_retrieved : Nat
  gemini_available : Bool
deriving Repr

/-- RAGEngine state: the vector store, the sentence-similarity model
(`encode` + `util.cos_sim`, an opaque score function), its availability flag,
and the Gemini generative model (`generate_content`, fallible). -/
structure RAGEngine where
  vector_store : VectorStore
  sim_model_available : Bool
  simScore : String → String → ℚ
  gemini_available : Bool
  geminiGenerate : String → Except String String

/-- The weather lexicon of `RAGEngine.is_weather_query`, verbatim: note the
duplicated `'temperature'` and the two entries with an upper-case letter. -/
def weather_terms : List String :=
  ["weather", "forecast", "temperature", "rain", "sunny", "cloudy", "humidity",
   "precipitation", "wind", "climate", "temperature", "degree", "°C", "°F"]

/-- `RAGEngine.is_weather_query`: `any(term in question.lower() for term in
weather_terms)`. The method reads no engine state. -/
def is_weather_query (question : String) : Bool :=
  weather_terms.any fun term => strContains (pyLowerStr question).data term.data

/-- The canonical not-found response of `construct_detailed_answer`. -/
def notFoundResponse : String :=
  "I couldn't find this information in the document."

/-- `RAGEngine.construct_detailed_answer(query, sentences, threshold=0.3)`:
score every sentence against the query, keep those at or above the threshold,
sort them by score (Python's stable `sort(reverse=True)`), take the top 3 and
concatenate them with substring-containment deduplication. Empty input or no
sentence clearing the threshold yields the canonical not-found response. -/
def RAGEngine.construct_detailed_answer (e : RAGEngine) (query : String)
    (sentences : List String) (threshold : ℚ) : String :=
  if sentences.isEmpty then notFoundResponse
  else
    let relevant_sentences := sentences.filterMap fun s =>
      if e.simScore query s ≥ threshold then some (s, e.simScore query s) else none
    if relevant_sentences.isEmpty then notFoundResponse
    else
      let sorted := sortDescBy (fun a b => decide (a.2 < b.2)) relevant_sentences
      let top_sentences := (sorted.take 3).map Prod.fst
      match top_sentences with
      | [] => notFoundResponse  -- unreachable: relevant_sentences nonempty
      | [t] => t
      | t :: rest =>
        rest.foldl (fun combined sent =>
          if strContains (pyLowerStr combined).data (pyLowerStr sent).data then
            combined
          else combined ++ " " ++ sent) t

/-- The prompt template of `generate_response` (text condensed; its exact
wording plays no role in any property). -/
def generatePrompt (query : String) : String :=
  "Please provide a clear, helpful, and informative answer to the following question. Question: "
    ++ query ++ " Guidelines: ... Answer:"

/-- The prompt template of `_fallback_generate_response` (condensed). -/
def fallbackPrompt (query : String) : String :=
  "Please provide a helpful and informative answer to the following question. Question: "
    ++ query ++ " Guidelines: ... Answer:"

/-- The weather-forecaster prompt template of `query` (condensed). -/
def weatherPrompt (question : String) : String :=
  "You are a professional weather forecaster. Please provide a helpful and informative weather forecast based on the following question: Question: "
    ++ question ++ " Guidelines for your response: ... Weather forecast:"

/-- The canned reply of `_fallback_generate_response`. -/
def cannedReply : String :=
  "I'd be happy to help with that! Please try again in a moment."

/-- `RAGEngine._fallback_generate_response`: canned reply when Gemini is
unavailable, else one more Gemini attempt whose failure is caught and turned
into the canned reply. Never raises. -/
def RAGEngine.fallback_generate_response (e : RAGEngine) (query : String) : String :=
  if !e.gemini_available then cannedReply
  else
    match e.geminiGenerate (fallbackPrompt query) with
    | .ok t => pyStripStr t
    | .error _ => cannedReply

/-- `RAGEngine.generate_response`: Gemini with the direct prompt, falling
back on unavailability or a caught provider exception. Never raises. -/
def RAGEngine.generate_response (e : RAGEngine) (query : String)
    (_context_docs : List String) : String :=
  if !e.gemini_available then e.fallback_generate_response query
  else
    match e.geminiGenerate (generatePrompt query) with
    | .ok t => pyStripStr t
    | .error _ => e.fallback_generate_response query

/-- `RAGEngine.retrieve_relevant_docs`: the texts of the store's search
results; a search exception propagates. -/
def RAGEngine.retrieve_relevant_docs (e : RAGEngine) (query : String) (k : Nat) :
    Except String (List String) :=
  match e.vector_store.search query k with
  | .error err => .error err
  | .ok results => .ok (results.map (·.1))

/-- `RAGEngine.query(question, k=6)`: a weather-classified question with
Gemini available tries the direct weather call and returns immediately on
success; a caught Gemini exception (or unavailability) falls through to the
standard flow: retrieval (whose embedding exception propagates) followed by
the never-raising `generate_response`. -/
def RAGEngine.query (e : RAGEngine) (question : String) (k : Nat) :
    Except String QueryResult :=
  let weatherResult : Option QueryResult :=
    if is_weather_query question then
      if e.gemini_available then
        match e.geminiGenerate (weatherPrompt question) with
        | .ok t => some
            { question := question
              response := pyStripStr t
              relevant_docs := []
              num_docs_retrieved := 0
              gemini_available := true }
        | .error _ => none  -- printed and swallowed; falls through
      else none
    else none
  match weatherResult with
  | some r => .ok r
  | none =>
    match e.retrieve_relevant_docs question k with
    | .error err => .error err
    | .ok relevant_docs =>
      .ok {
        question := question
        response := e.generate_response question relevant_docs
        relevant_docs := relevant_docs
        num_docs_retrieved := relevant_docs.length
        gemini_available := e.gemini_available }

/-! ### Operation sequences over a VectorStore (for the referential invariant) -/

/-- One call in a client session against a `VectorStore` plus the file
system. -/
inductive VOp where
  | create : VOp
  | add (texts : List String) (metadata : Option (List Meta)) : VOp
  | save (fp : String) : VOp
  | load (fp : String) : VOp

/-- Execute one call; `none` means the Python call raised (an embedding
failure in `add_texts` or a malformed artifact in `load`), aborting the
session. -/
def execOp (p : VectorStore × FS) (op : VOp) : Option (VectorStore × FS) :=
  match op with
  | .create => some (p.1.create_index, p.2)
  | .add ts m =>
    match p.1.add_texts ts m with
    | .ok s' => some (s', p.2)
    | .error _ => none
  | .save fp => some (p.1, p.1.save fp p.2)
  | .load fp =>
    match p.1.load fp p.2 with
    | .ok r => some (r.2, p.2)
    | .error _ => none

/-- Execute a sequence of calls. -/
def execSeq (p : VectorStore × FS) : List VOp → Option (VectorStore × FS)
  | [] => some p
  | op :: t =>
    match execOp p op with
    | some p' => execSeq p' t
    | none => none

/-- Number of vectors held by the faiss index (`ntotal`; 0 when no index has
been created yet). -/
def numVectors (s : VectorStore) : Nat :=
  match s.index with
  | none => 0
  | some i => i.xb.length

/-- The referential invariant of the three parallel containers. -/
def StoreInv (s : VectorStore) : Prop :=
  numVectors s = s.texts.length ∧ s.texts.length = s.metadata.length

/-- A freshly constructed `VectorStore` (its `__init__`). -/
def freshStore (embed : String → Except String (List ℚ)) : VectorStore :=
  { embed := embed }

/-- Well-formedness of one call, per the claim: metadata, when supplied to
`add_texts`, has the same length as the text list. -/
def opOK : VOp → Bool
  | .add ts (some m) => m.length == ts.length
  | _ => true

/-- No `create_index` occurs after an operation that can populate the store
(`add_texts` or `load`); the flag records whether such an operation has
already occurred. -/
def noLateCreate : Bool → List VOp → Bool
  | _, [] => true
  | grown, .create :: t => !grown && noLateCreate grown t
  | _, .add _ _ :: t => noLateCreate true t
  | _, .load _ :: t => noLateCreate true t
  | grown, .save _ :: t => noLateCreate grown t

/-! ### Concrete instances used by witnesses and counterexamples -/

/-- An embedding model that always succeeds (with the zero-length vector, so
that inner products reduce to `0` by computation alone). -/
def embedOne : String → Except String (List ℚ) := fun _ => .ok []

/-- An embedding model that raises at call time. -/
def embedFail : String → Except String (List ℚ) :=
  fun _ => .error "embedding model crashed"

/-- A store holding one entry `"a"`. -/
def storeOne : VectorStore :=
  { embed := embedOne, index := some ⟨384, [[]]⟩, texts := ["a"], metadata := [[]] }

/-- A store holding one entry whose embedding model raises at query time. -/
def storeBad : VectorStore :=
  { embed := embedFail, index := some ⟨384, [[]]⟩, texts := ["a"], metadata := [[]] }

/-- A generative model that always succeeds. -/
def genOK : String → Except String String := fun _ => .ok " All good. "

/-- A generative model that always raises. -/
def genFail : String → Except String String := fun _ => .error "provider error"

/-- Engine whose similarity model scores everything 0. -/
def engineOK : RAGEngine :=
  { vector_store := storeOne, sim_model_available := true,
    simScore := fun _ _ => 0, gemini_available := true, geminiGenerate := genOK }

/-- Engine whose vector-store embedding raises at query time. -/
def engineBad : RAGEngine :=
  { vector_store := storeBad, sim_model_available := true,
    simScore := fun _ _ => 0, gemini_available := true, geminiGenerate := genOK }

/-- Engine with Gemini unavailable. -/
def engineNoGemini : RAGEngine :=
  { vector_store := storeOne, sim_model_available := true,
    simScore := fun _ _ => 0, gemini_available := false, geminiGenerate := genFail }

/-- A fresh store for load tests. -/
def storeFresh : VectorStore := freshStore embedOne

/-- A file system whose index artifact for `"store"` is malformed while the
data artifact is fine. -/
def fsCorruptIdx : FS := ⟨[("store", .corrupt)], [("store", .good [] [])]⟩

/-- A file system whose data artifact for `"store"` is malformed while the
index artifact is fine. -/
def fsCorruptDat : FS := ⟨[("store", .good 384 [[]])], [("store", .corrupt)]⟩

/-- The page text used in the chunking scenario: `n` words, each the single
letter `a`, separated by single spaces (`"a a ... a"`). -/
def w : Nat → List Char
  | 0 => []
  | 1 => ['a']
  | n + 2 => 'a' :: ' ' :: w (n + 1)

/-- Page 1 of the chunking scenario: 10 words. -/
def p1C5 : String := ⟨w 10⟩

/-- Page 2 of the chunking scenario: 2500 words. -/
def p2C5 : String := ⟨w 2500⟩

/-- The extracted text of the two-page scenario document. -/
def textC5 : String := buildPdfText [p1C5, p2C5]

/-- The chunks the code emits for the scenario document with
`chunk_size = 1000`, `overlap = 200`. -/
def chunksC5 : List (List Char) := get_text_chunks textC5.data 1000 200

/-- The piece of the scenario text that `split("--- Page")` yields for
page 1. -/
def pieceA : List Char :=
  ' ' :: '1' :: ' ' :: '-' :: '-' :: '-' :: '\n' :: (w 10 ++ ['\n', '\n'])

/-- The piece of the scenario text that `split("--- Page")` yields for
page 2. -/
def pieceB : List Char :=
  ' ' :: '2' :: ' ' :: '-' :: '-' :: '-' :: '\n' :: (w 2500 ++ ['\n'])

/-- The twelve all-lowercase entries of the weather lexicon (the full lexicon
additionally holds `"°C"` and `"°F"`). -/
def weather_terms_lower : List String :=
  ["weather", "forecast", "temperature", "rain", "sunny", "cloudy", "humidity",
   "precipitation", "wind", "climate", "temperature", "degree"]

/-- Consistency of the artifact pair stored under one key: whenever both
files exist they are well-formed and their entry counts agree. -/
def artifactsConsistent : Option IndexArtifact → Option DataArtifact → Prop
  | some (.good _ xb), some (.good ts ms) => xb.length = ts.length ∧ ts.length = ms.length
  | some _, some _ => False
  | _, _ => True

/-- Every key of the file system holds a consistent artifact pair. -/
def FSInv (fs : FS) : Prop :=
  ∀ fp, artifactsConsistent (fs.readIdx fp) (fs.readDat fp)

/-! ### Helper lemmas -/

theorem mem_of_isPrefixOf : ∀ {n h : List Char}, n.isPrefixOf h = true →
    ∀ c ∈ n, c ∈ h := by
  intro n
  induction n with
  | nil => intro h _ c hc; cases hc
  | cons a n ih =>
    intro h hp c hc
    cases h with
    | nil => simp [List.isPrefixOf] at hp
    | cons b t =>
      simp only [List.isPrefixOf, Bool.and_eq_true, beq_iff_eq] at hp
      obtain ⟨hab, hrest⟩ := hp
      rcases List.mem_cons.mp hc with hc | hc
      · exact List.mem_cons.mpr (Or.inl (hc.trans hab))
      · exact List.mem_cons_of_mem b (ih hrest c hc)

theorem mem_of_strContains : ∀ {hay n : List Char}, strContains hay n = true →
    ∀ c ∈ n, c ∈ hay := by
  intro hay
  induction hay with
  | nil =>
    intro n h c hc
    simp only [strContains, List.isEmpty_iff] at h
    subst h; cases hc
  | cons b t ih =>
    intro n h c hc
    simp only [strContains, Bool.or_eq_true] at h
    rcases h with h | h
    · exact mem_of_isPrefixOf h c hc
    · exact List.mem_cons_of_mem b (ih h c hc)

theorem pyCharLower_not_upper (c : Char) :
    ¬ (65 ≤ (pyCharLower c).toNat ∧ (pyCharLower c).toNat ≤ 90) := by
  unfold pyCharLower
  split
  · rename_i hc
    obtain ⟨h1, h2⟩ := hc
    set n := c.toNat with hn
    interval_cases n <;> decide
  · rename_i hc
    exact hc

theorem no_upper_in_lower (s : List Char) (u : Char)
    (hu : 65 ≤ u.toNat ∧ u.toNat ≤ 90) : u ∉ s.map pyCharLower := by
  intro hmem
  obtain ⟨c, _, hc⟩ := List.mem_map.mp hmem
  rw [← hc] at hu
  exact pyCharLower_not_upper c hu

theorem strContains_degree_false (s : List Char) (u : Char)
    (hu : 65 ≤ u.toNat ∧ u.toNat ≤ 90) :
    strContains (s.map pyCharLower) ['°', u] = false := by
  by_contra h
  rw [Bool.not_eq_false] at h
  exact no_upper_in_lower s u hu (mem_of_strContains h u (by simp))

/-! ### Claim theorems -/

/-- C10: for every question, `is_weather_query` is unaffected by the lexicon
entries `"°C"` and `"°F"` — the question is lowercased before the
case-sensitive substring test, so a term containing an upper-case letter can
never match — and the result is exactly whether one of the twelve
all-lowercase lexicon terms occurs as a substring of the lowercased
question. -/
theorem is_weather_query_ignores_degree_entries (q : String) :
    is_weather_query q =
      (weather_terms_lower.any fun t => strContains (pyLowerStr q).data t.data) := by
  have hdata : (pyLowerStr q).data = q.data.map pyCharLower := rfl
  have hC : ("°C".data : List Char) = ['°', 'C'] := rfl
  have hF : ("°F".data : List Char) = ['°', 'F'] := rfl
  unfold is_weather_query weather_terms weather_terms_lower
  simp only [List.any_cons, List.any_nil, hdata, hC, hF,
    strContains_degree_false q.data 'C' (by decide),
    strContains_degree_false q.data 'F' (by decide), Bool.or_false]

/-- C8 (counterexample): a document that cannot be opened makes
`extract_text` complete with the ordinary return value `""` — the catch-all
handler swallows the exception — rather than failing with an
`ExtractionError`. -/
theorem extract_text_swallows_open_failure :
    extract_text (Except.error "cannot open file") = "" := rfl

/-- C8 (amended): if the source document cannot be opened or parsed,
`extract_text` reports the error to the UI and returns the empty string as an
ordinary value; no exception reaches the caller. -/
theorem extract_text_error_returns_empty (e : String) :
    extract_text (Except.error e) = "" := rfl

/-- C7 (counterexample): with both artifact files present but the index
artifact malformed, `VectorStore.load` raises the deserialization error
instead of returning `false`. -/
theorem load_crashes_on_corrupt_index_file :
    VectorStore.load storeFresh "store" fsCorruptIdx =
      Except.error "faiss.read_index failed" := rfl

/-- C7 (amended): when both persisted artifact files for a store name exist
but one of them is malformed, `VectorStore.load` propagates the
deserialization exception rather than returning `false`; `false` is returned
only when one of the files is missing. -/
theorem load_raises_on_malformed_artifact
    (s : VectorStore) (fp : String) (fs : FS) (ia : IndexArtifact) (da : DataArtifact)
    (hia : fs.readIdx fp = some ia) (hda : fs.readDat fp = some da)
    (hbad : ia = IndexArtifact.corrupt ∨ da = DataArtifact.corrupt) :
    ∃ err, VectorStore.load s fp fs = Except.error err := by
  unfold VectorStore.load
  rw [hia, hda]
  rcases hbad with h | h
  · subst h
    exact ⟨_, rfl⟩
  · subst h
    cases ia with
    | corrupt => exact ⟨_, rfl⟩
    | good d xb => exact ⟨_, rfl⟩

/-- Witness for C7 (amended): a present-but-corrupt pickle side table makes
`load` raise. -/
theorem load_raises_on_malformed_artifact_witness :
    ∃ err, VectorStore.load storeFresh "store" fsCorruptDat = Except.error err :=
  load_raises_on_malformed_artifact storeFresh "store" fsCorruptDat
    (IndexArtifact.good 384 [[]]) DataArtifact.corrupt rfl rfl (Or.inr rfl)

/-- C6: when every candidate sentence scores strictly below the rerank
threshold, `construct_detailed_answer` returns the canonical not-found
response and never a combination of sub-threshold sentences. -/
theorem construct_answer_not_found_below_threshold
    (e : RAGEngine) (q : String) (sentences : List String) (threshold : ℚ)
    (h : ∀ s ∈ sentences, e.simScore q s < threshold) :
    e.construct_detailed_answer q sentences threshold = notFoundResponse := by
  unfold RAGEngine.construct_detailed_answer
  cases sentences with
  | nil => rfl
  | cons a t =>
    have hrel : ((a :: t).filterMap fun s =>
        if e.simScore q s ≥ threshold then some (s, e.simScore q s) else none) = [] := by
      rw [List.filterMap_eq_nil_iff]
      intro s hs
      simp [not_le.mpr (h s hs)]
    simp [hrel]

/-- Witness for C6 at a concrete engine, sentence list and threshold. -/
theorem construct_answer_not_found_below_threshold_witness :
    RAGEngine.construct_detailed_answer engineOK "query" ["some candidate sentence"] 1 =
      notFoundResponse :=
  construct_answer_not_found_below_threshold engineOK "query"
    ["some candidate sentence"] 1 (by
      intro s _
      show (0 : ℚ) < 1
      decide)

/-- C2 (code evaluated at the failing input): a store holding n = 1 entries
searched with k = 2 returns the stored entry twice — faiss pads the missing
slot with label -1 and the -inf sentinel, the guard `idx < len(self.texts)`
lets -1 through, and Python's negative indexing reads the last entry — so
the result is not the n entries each exactly once. -/
theorem search_duplicates_last_entry_when_k_exceeds_count :
    VectorStore.search storeOne "q" 2 =
      Except.ok [("a", FVal.fin 0, []), ("a", FVal.negInf, [])] := rfl

/-- C1 (counterexample): with a non-empty store whose embedding model raises
at query time, `query` propagates the exception to its caller instead of
returning a QueryResult. -/
theorem query_raises_on_embedding_failure :
    RAGEngine.query engineBad "hello" 6 = Except.error "embedding model crashed" := rfl

/-- C1 (amended): `query` never propagates generative-provider failures;
whenever document retrieval succeeds (in particular whenever the store is
empty, and regardless of the generative provider's health), it returns a
QueryResult carrying the question and the availability flag; only an
embedding-model exception raised inside retrieval escapes to the caller. -/
theorem query_returns_result_when_retrieval_succeeds
    (e : RAGEngine) (question : String) (k : Nat) (docs : List String)
    (h : e.retrieve_relevant_docs question k = Except.ok docs) :
    ∃ r : QueryResult, e.query question k = Except.ok r ∧
      r.question = question ∧ r.gemini_available = e.gemini_available := by
  by_cases hW : is_weather_query question
  · by_cases hG : e.gemini_available
    · cases hgen : e.geminiGenerate (weatherPrompt question) with
      | ok t =>
        refine ⟨⟨question, pyStripStr t, [], 0, true⟩, ?_, rfl, hG.symm⟩
        simp [RAGEngine.query, hW, hG, hgen]
      | error err =>
        refine ⟨⟨question, e.generate_response question docs, docs, docs.length,
          e.gemini_available⟩, ?_, rfl, rfl⟩
        simp [RAGEngine.query, hW, hG, hgen, h]
    · refine ⟨⟨question, e.generate_response question docs, docs, docs.length,
        e.gemini_available⟩, ?_, rfl, rfl⟩
      simp [RAGEngine.query, hW, hG, h]
  · refine ⟨⟨question, e.generate_response question docs, docs, docs.length,
      e.gemini_available⟩, ?_, rfl, rfl⟩
    simp [RAGEngine.query, hW, h]

/-- Witness for C1 (amended) at a concrete engine and question. -/
theorem query_returns_result_when_retrieval_succeeds_witness :
    ∃ r : QueryResult, RAGEngine.query engineOK "hello" 6 = Except.ok r ∧
      r.question = "hello" ∧ r.gemini_available = engineOK.gemini_available :=
  query_returns_result_when_retrieval_succeeds engineOK "hello" 6
    ["a", "a", "a", "a", "a", "a"] rfl

/-- C3: after `save`, loading into a fresh store that shares the embedding
model reconstructs a store whose `search` results are identical (exactly, so
in particular within floating-point tolerance) to the pre-save store's, for
every query and k. -/
theorem save_load_roundtrip
    (s fresh : VectorStore) (fp q : String) (k : Nat)
    (hembed : fresh.embed = s.embed) (s' : VectorStore)
    (hload : VectorStore.load fresh fp (VectorStore.save s fp FS.empty) =
      Except.ok (true, s')) :
    VectorStore.search s' q k = VectorStore.search s q k := by
  cases hidx : s.index with
  | none =>
    exfalso
    simp [VectorStore.save, hidx, VectorStore.load, FS.readIdx, FS.readDat,
      FS.empty] at hload
  | some i =>
    have hs' : s' =
        { fresh with
            index := some ⟨i.d, i.xb⟩,
            texts := s.texts, metadata := s.metadata } := by
      simp [VectorStore.save, hidx, VectorStore.load, FS.readIdx, FS.readDat,
        List.find?] at hload
      exact hload.symm
    subst hs'
    cases i
    simp [VectorStore.search, hembed, hidx]

/-- Witness for C3 at a one-entry store. -/
theorem save_load_roundtrip_witness :
    VectorStore.search storeOne "q" 1 = VectorStore.search storeOne "q" 1 :=
  save_load_roundtrip storeOne storeFresh "p" "q" 1 rfl storeOne rfl

/-- C4 (counterexample): a weather-classified question with the generative
provider unavailable falls through to the standard flow — retrieval is not
bypassed and the returned count is 1, not 0. -/
theorem weather_query_without_gemini_retrieves :
    is_weather_query "weather" = true ∧
      RAGEngine.query engineNoGemini "weather" 1 =
        Except.ok ⟨"weather", cannedReply, ["a"], 1, false⟩ ∧
      (1 : Nat) ≠ 0 :=
  ⟨rfl, rfl, by decide⟩

/-- C4 (amended): a weather-classified question bypasses retrieval — the
QueryResult has retrieved count 0 and an empty passage list — provided the
generative provider is available and its call succeeds; otherwise the code
falls through to the standard retrieval flow. -/
theorem weather_query_bypasses_retrieval
    (e : RAGEngine) (q : String) (k : Nat) (t : String)
    (hW : is_weather_query q = true) (hG : e.gemini_available = true)
    (hgen : e.geminiGenerate (weatherPrompt q) = Except.ok t) :
    e.query q k = Except.ok ⟨q, pyStripStr t, [], 0, true⟩ := by
  simp [RAGEngine.query, hW, hG, hgen]

/-- Witness for C4 (amended) at a concrete weather question and engine. -/
theorem weather_query_bypasses_retrieval_witness :
    RAGEngine.query engineOK "weather" 6 =
      Except.ok ⟨"weather", pyStripStr " All good. ", [], 0, true⟩ :=
  weather_query_bypasses_retrieval engineOK "weather" 6 " All good. " rfl rfl rfl

theorem embedBatch_length {f : String → Except String (List ℚ)} :
    ∀ {ts : List String} {vs : List (List ℚ)},
      embedBatch f ts = Except.ok vs → vs.length = ts.length := by
  intro ts
  induction ts with
  | nil =>
    intro vs h
    unfold embedBatch at h
    cases h
    rfl
  | cons t ts ih =>
    intro vs h
    unfold embedBatch at h
    cases hf : f t with
    | error e => rw [hf] at h; cases h
    | ok v =>
      rw [hf] at h
      cases hb : embedBatch f ts with
      | error e => rw [hb] at h; cases h
      | ok vs' =>
        rw [hb] at h
        cases h
        simp [ih hb]

theorem add_texts_inv {s s' : VectorStore} {ts : List String} {m : Option (List Meta)}
    (hinv : StoreInv s) (hop : opOK (VOp.add ts m) = true)
    (h : s.add_texts ts m = Except.ok s') : StoreInv s' := by
  obtain ⟨h1, h2⟩ := hinv
  cases hidx : s.index with
  | none =>
    have htexts : s.texts = [] := by
      have h0 : s.texts.length = 0 := by simpa [numVectors, hidx] using h1.symm
      exact List.length_eq_zero.mp h0
    have hmeta : s.metadata = [] := by
      have h0 : s.metadata.length = 0 := by simpa [htexts] using h2.symm
      exact List.length_eq_zero.mp h0
    simp only [VectorStore.add_texts, VectorStore.create_index, hidx,
      Option.isNone_none, if_true, Except.map] at h
    cases hemb : embedBatch s.embed ts with
    | error e => rw [hemb] at h; cases h
    | ok embs =>
      rw [hemb] at h
      cases h
      constructor
      · simp [numVectors, FaissIndexFlatIP.add, embedBatch_length hemb, htexts]
      · dsimp only
        simp only [List.length_append, htexts, List.length_nil]
        cases m with
        | none => simp [hmeta]
        | some mm =>
          by_cases hmm : mm.isEmpty
          · simp [hmm, hmeta]
          · simp only [opOK] at hop
            have hml : mm.length = ts.length := by simpa using hop
            simp [hmm, hml, hmeta]
  | some i =>
    simp only [VectorStore.add_texts, hidx, Option.isNone_some, if_false,
      Bool.false_eq_true, Except.map] at h
    cases hemb : embedBatch s.embed ts with
    | error e => rw [hemb] at h; cases h
    | ok embs =>
      rw [hemb] at h
      cases h
      have hxb : i.xb.length = s.texts.length := by simpa [numVectors, hidx] using h1
      constructor
      · simp [numVectors, FaissIndexFlatIP.add, embedBatch_length hemb, hxb]
      · dsimp only
        simp only [List.length_append, h2]
        cases m with
        | none => simp
        | some mm =>
          by_cases hmm : mm.isEmpty
          · simp [hmm]
          · simp only [opOK] at hop
            have hml : mm.length = ts.length := by simpa using hop
            simp [hmm, hml]

theorem save_fsinv {s : VectorStore} {fs : FS} (hs : StoreInv s) (hfs : FSInv fs)
    (fp : String) : FSInv (s.save fp fs) := by
  cases hidx : s.index with
  | none => simpa [VectorStore.save, hidx] using hfs
  | some i =>
    intro fp'
    by_cases hfp : fp = fp'
    · subst hfp
      obtain ⟨h1, h2⟩ := hs
      simp only [numVectors, hidx] at h1
      simp [VectorStore.save, hidx, FS.readIdx, FS.readDat, List.find?,
        artifactsConsistent, h1, h2]
    · have hbeq : (fp == fp') = false := by simp [hfp]
      simpa [VectorStore.save, hidx, FS.readIdx, FS.readDat, List.find?, hbeq]
        using hfs fp'

theorem load_inv {s : VectorStore} {fs : FS} {fp : String} {r : Bool × VectorStore}
    (hs : StoreInv s) (hfs : FSInv fs)
    (h : s.load fp fs = Except.ok r) : StoreInv r.2 := by
  unfold VectorStore.load at h
  cases hia : fs.readIdx fp with
  | none =>
    rw [hia] at h
    cases hda : fs.readDat fp <;> rw [hda] at h <;> cases h <;> exact hs
  | some ia =>
    rw [hia] at h
    cases hda : fs.readDat fp with
    | none => rw [hda] at h; cases h; exact hs
    | some da =>
      rw [hda] at h
      have hcons := hfs fp
      rw [hia, hda] at hcons
      cases ia with
      | corrupt => exact absurd hcons (by simp [artifactsConsistent])
      | good d xb =>
        cases da with
        | corrupt => exact absurd hcons (by simp [artifactsConsistent])
        | good ts ms =>
          cases h
          simp only [artifactsConsistent] at hcons
          exact ⟨by simpa [numVectors] using hcons.1, by simpa using hcons.2⟩

theorem execSeq_inv :
    ∀ (ops : List VOp) (g : Bool) (s : VectorStore) (fs : FS) (s' : VectorStore) (fs' : FS),
      StoreInv s → FSInv fs → (g = false → s.texts = []) →
      ops.all opOK = true → noLateCreate g ops = true →
      execSeq (s, fs) ops = some (s', fs') → StoreInv s' := by
  intro ops
  induction ops with
  | nil =>
    intro g s fs s' fs' hs hfs hg hall hnlc h
    simp only [execSeq, Option.some_inj, Prod.mk.injEq] at h
    obtain ⟨rfl, rfl⟩ := h
    exact hs
  | cons op t ih =>
    intro g s fs s' fs' hs hfs hg hall hnlc h
    simp only [List.all_cons, Bool.and_eq_true] at hall
    obtain ⟨hop, hall⟩ := hall
    cases op with
    | create =>
      simp only [noLateCreate, Bool.and_eq_true, Bool.not_eq_true'] at hnlc
      obtain ⟨hgf, hnlc⟩ := hnlc
      have htexts : s.texts = [] := hg hgf
      simp only [execSeq, execOp] at h
      refine ih g s.create_index fs s' fs' ⟨?_, ?_⟩ hfs ?_ hall hnlc h
      · simp [numVectors, VectorStore.create_index, htexts]
      · simpa [VectorStore.create_index, htexts] using hs.2
      · intro _
        simpa [VectorStore.create_index] using htexts
    | add ts m =>
      simp only [noLateCreate] at hnlc
      simp only [execSeq, execOp] at h
      cases hadd : s.add_texts ts m with
      | error e => rw [hadd] at h; cases h
      | ok s1 =>
        rw [hadd] at h
        exact ih true s1 fs s' fs' (add_texts_inv hs hop hadd) hfs
          (by intro hc; cases hc) hall hnlc h
    | save fp =>
      simp only [noLateCreate] at hnlc
      simp only [execSeq, execOp] at h
      exact ih g s (s.save fp fs) s' fs' hs (save_fsinv hs hfs fp) hg hall hnlc h
    | load fp =>
      simp only [noLateCreate] at hnlc
      simp only [execSeq, execOp] at h
      cases hload : s.load fp fs with
      | error e => rw [hload] at h; cases h
      | ok r =>
        rw [hload] at h
        exact ih true r.2 fs s' fs' (load_inv hs hfs hload) hfs
          (by intro hc; cases hc) hall hnlc h

/-- C9 (counterexample): `create_index` after `add_texts` resets the faiss
index but leaves `texts`/`metadata` populated, so the vector count (0) no
longer equals the text count (1). -/
theorem create_index_after_add_breaks_invariant :
    (execSeq (freshStore embedOne, FS.empty) [VOp.add ["a"] none, VOp.create]).map
        (fun p => (numVectors p.1, p.1.texts.length, p.1.metadata.length)) =
      some (0, 1, 1) ∧ (0 : Nat) ≠ 1 :=
  ⟨rfl, by decide⟩

/-- C9 (amended): after any session of create_index / add_texts (metadata,
when supplied, of the same length as the text list) / save / load calls that
starts from a fresh store and an empty file system, completes without an
exception, and never calls create_index once the store can hold entries
(i.e., after an add_texts or load), the number of vectors in the index equals
the number of stored texts and the number of stored metadata records. -/
theorem parallel_containers_invariant
    (embed : String → Except String (List ℚ)) (ops : List VOp)
    (h1 : ops.all opOK = true) (h2 : noLateCreate false ops = true)
    (s : VectorStore) (fs : FS)
    (h3 : execSeq (freshStore embed, FS.empty) ops = some (s, fs)) :
    numVectors s = s.texts.length ∧ s.texts.length = s.metadata.length :=
  execSeq_inv ops false (freshStore embed) FS.empty s fs ⟨rfl, rfl⟩
    (fun _ => trivial) (fun _ => rfl) h1 h2 h3

/-- Witness for C9 (amended) on a one-call session. -/
theorem parallel_containers_invariant_witness :
    numVectors storeOne = storeOne.texts.length ∧
      storeOne.texts.length = storeOne.metadata.length :=
  parallel_containers_invariant embedOne [VOp.add ["a"] none] rfl rfl
    storeOne FS.empty rfl

/-! ### Lemmas for the chunking scenario (C5) -/

theorem w_head : ∀ n : Nat, ∃ t, w (n + 1) = 'a' :: t := by
  intro n
  cases n with
  | zero => exact ⟨[], rfl⟩
  | succ n => exact ⟨' ' :: w (n + 1), rfl⟩

theorem length_w : ∀ n : Nat, (w (n + 1)).length = 2 * n + 1 := by
  intro n
  induction n with
  | zero => rfl
  | succ n ih =>
    show ('a' :: ' ' :: w (n + 1)).length = 2 * (n + 1) + 1
    simp only [List.length_cons, ih]
    omega

theorem mem_w : ∀ (n : Nat) (c : Char), c ∈ w n → c = 'a' ∨ c = ' ' := by
  intro n
  induction n with
  | zero => intro c hc; cases hc
  | succ n ih =>
    cases n with
    | zero =>
      intro c hc
      rcases List.mem_singleton.mp hc with h
      exact Or.inl h
    | succ n =>
      intro c hc
      rcases List.mem_cons.mp hc with h | hc
      · exact Or.inl h
      · rcases List.mem_cons.mp hc with h | hc
        · exact Or.inr h
        · exact ih c hc

theorem pyLenGo_eq (l : List α) : ∀ n, pyLenGo n l = n + l.length := by
  induction l with
  | nil => intro n; simp [pyLenGo]
  | cons a l ih => intro n; simp [pyLenGo, ih]; omega

theorem pyLen_eq_length (l : List α) : pyLen l = l.length := by
  simp [pyLen, pyLenGo_eq]

theorem splitOnGo_nil_eq (sep : List Char) (fuel : Nat) (acc : List Char) :
    splitOnGo sep fuel [] acc = [acc.reverse] := by
  cases fuel <;> simp [splitOnGo]

theorem splitOnGo_step (sep : List Char) (c : Char) (t : List Char)
    (hne : sep.isPrefixOf (c :: t) = false) (fuel fuel' : Nat)
    (hfuel : fuel = fuel' + 1) (acc : List Char) :
    splitOnGo sep fuel (c :: t) acc = splitOnGo sep fuel' t (c :: acc) := by
  subst hfuel
  simp [splitOnGo, hne]

theorem splitOnGo_match (sep v : List Char) (c0 : Char) (s0 : List Char)
    (hsep : sep = c0 :: s0) (fuel fuel' : Nat) (hfuel : fuel = fuel' + 1)
    (acc : List Char) :
    splitOnGo sep fuel (sep ++ v) acc = acc.reverse :: splitOnGo sep fuel' v [] := by
  subst hfuel
  subst hsep
  have hgen : ∀ (l r : List Char), l.isPrefixOf (l ++ r) = true := by
    intro l r
    induction l with
    | nil => cases r <;> rfl
    | cons a s ih => simp [List.isPrefixOf, ih]
  have hpre : (c0 :: s0).isPrefixOf (c0 :: (s0 ++ v)) = true := by
    have h := hgen (c0 :: s0) v
    simp only [List.cons_append] at h
    exact h
  have hdrop : List.drop (c0 :: s0).length (c0 :: (s0 ++ v)) = v := by
    have h := List.drop_left (c0 :: s0) v
    simp only [List.cons_append] at h
    exact h
  simp [splitOnGo, hpre, hdrop]

theorem splitOnGo_skip (sep : List Char) (c0 : Char) (s0 : List Char)
    (hsep : sep = c0 :: s0) :
    ∀ (u : List Char), (∀ c ∈ u, c ≠ c0) →
    ∀ (fuel fuel' : Nat), fuel = u.length + fuel' →
    ∀ (rest acc : List Char),
      splitOnGo sep fuel (u ++ rest) acc =
        splitOnGo sep fuel' rest (u.reverse ++ acc) := by
  intro u
  induction u with
  | nil =>
    intro _ fuel fuel' hfuel rest acc
    subst hfuel
    simp
  | cons c u ih =>
    intro hu fuel fuel' hfuel rest acc
    have hne : sep.isPrefixOf (c :: (u ++ rest)) = false := by
      subst hsep
      have hc : (c0 == c) = false :=
        beq_eq_false_iff_ne.mpr (hu c (List.mem_cons_self c u)).symm
      simp [List.isPrefixOf, hc]
    have hfuel' : fuel = (u.length + fuel') + 1 := by
      simp only [List.length_cons] at hfuel
      omega
    rw [show ((c :: u) ++ rest : List Char) = c :: (u ++ rest) from rfl]
    rw [splitOnGo_step sep c (u ++ rest) hne fuel (u.length + fuel') hfuel' acc]
    rw [ih (fun d hd => hu d (List.mem_cons_of_mem c hd)) (u.length + fuel') fuel' rfl
      rest (c :: acc)]
    simp

theorem splitOnGo_step1 (c : Char) (hc : ('-' == c) = false) (t : List Char)
    (fuel fuel' : Nat) (hfuel : fuel = fuel' + 1) (acc : List Char) :
    splitOnGo ("--- Page".data) fuel (c :: t) acc =
      splitOnGo ("--- Page".data) fuel' t (c :: acc) := by
  apply splitOnGo_step _ _ _ _ _ _ hfuel
  have e : ("--- Page".data : List Char) = ['-', '-', '-', ' ', 'P', 'a', 'g', 'e'] := rfl
  rw [e]
  simp [List.isPrefixOf, hc]

theorem splitOnGo_dashes (t : List Char) (fuel fuel' : Nat) (hfuel : fuel = fuel' + 3)
    (acc : List Char) :
    splitOnGo ("--- Page".data) fuel ('-' :: '-' :: '-' :: '\n' :: t) acc =
      splitOnGo ("--- Page".data) fuel' ('\n' :: t) ('-' :: '-' :: '-' :: acc) := by
  have e : ("--- Page".data : List Char) = ['-', '-', '-', ' ', 'P', 'a', 'g', 'e'] := rfl
  have h1 : ("--- Page".data).isPrefixOf ('-' :: '-' :: '-' :: '\n' :: t) = false := by
    rw [e]; simp [List.isPrefixOf]
  have h2 : ("--- Page".data).isPrefixOf ('-' :: '-' :: '\n' :: t) = false := by
    rw [e]; simp [List.isPrefixOf]
  have h3 : ("--- Page".data).isPrefixOf ('-' :: '\n' :: t) = false := by
    rw [e]; simp [List.isPrefixOf]
  rw [splitOnGo_step _ '-' _ h1 fuel (fuel' + 2) (by omega) acc]
  rw [splitOnGo_step _ '-' _ h2 (fuel' + 2) (fuel' + 1) rfl]
  rw [splitOnGo_step _ '-' _ h3 (fuel' + 1) fuel' rfl]

theorem splitOnGo_skip_w (n : Nat) (rest acc : List Char) (fuel fuel' : Nat)
    (hfuel : fuel = (w (n + 1)).length + fuel') :
    splitOnGo ("--- Page".data) fuel (w (n + 1) ++ rest) acc =
      splitOnGo ("--- Page".data) fuel' rest ((w (n + 1)).reverse ++ acc) :=
  splitOnGo_skip _ '-' ("-- Page".data) rfl (w (n + 1))
    (fun c hc => by rcases mem_w _ c hc with h | h <;> subst h <;> decide)
    fuel fuel' hfuel rest acc

theorem splitOnGo_matchP (v : List Char) (fuel fuel' : Nat) (hfuel : fuel = fuel' + 1)
    (acc : List Char) :
    splitOnGo ("--- Page".data) fuel
        ('-' :: '-' :: '-' :: ' ' :: 'P' :: 'a' :: 'g' :: 'e' :: v) acc =
      acc.reverse :: splitOnGo ("--- Page".data) fuel' v [] := by
  have e : ("--- Page".data : List Char) = ['-', '-', '-', ' ', 'P', 'a', 'g', 'e'] := rfl
  have h := splitOnGo_match ("--- Page".data) v '-' ("-- Page".data) rfl fuel fuel' hfuel acc
  simpa using h

theorem splitOnGo_skip_wn (n : Nat) (hn : 1 ≤ n) (rest acc : List Char)
    (fuel fuel' : Nat) (hfuel : fuel = (w n).length + fuel') :
    splitOnGo ("--- Page".data) fuel (w n ++ rest) acc =
      splitOnGo ("--- Page".data) fuel' rest ((w n).reverse ++ acc) := by
  cases n with
  | zero => omega
  | succ m => exact splitOnGo_skip_w m rest acc fuel fuel' hfuel

theorem len_w10 : (w 10).length = 19 := by
  rw [show (10 : Nat) = 9 + 1 from rfl, length_w]

theorem len_w2500 : (w 2500).length = 4999 := by
  rw [show (2500 : Nat) = 2499 + 1 from rfl, length_w]

theorem splitOn_textC5 :
    splitOnChars ("--- Page".data) textC5.data = [['\n'], pieceA, pieceB] := by
  have h1 : ("\n--- Page ".data : List Char) =
      ['\n', '-', '-', '-', ' ', 'P', 'a', 'g', 'e', ' '] := rfl
  have h2 : ((toString (0 + 1) : String)).data = ['1'] := rfl
  have h3 : ((toString (1 + 1) : String)).data = ['2'] := rfl
  have h4 : (" ---\n".data : List Char) = [' ', '-', '-', '-', '\n'] := rfl
  have h5 : ("\n".data : List Char) = ['\n'] := rfl
  have hp1 : p1C5.data = w 10 := rfl
  have hp2 : p2C5.data = w 2500 := rfl
  have htext : textC5.data =
      '\n' :: '-' :: '-' :: '-' :: ' ' :: 'P' :: 'a' :: 'g' :: 'e' ::
        ' ' :: '1' :: ' ' :: '-' :: '-' :: '-' :: '\n' ::
          (w 10 ++
            ('\n' :: '\n' :: '-' :: '-' :: '-' :: ' ' :: 'P' :: 'a' :: 'g' :: 'e' ::
              ' ' :: '2' :: ' ' :: '-' :: '-' :: '-' :: '\n' :: (w 2500 ++ ['\n']))) := by
    simp only [textC5, buildPdfText, List.enum, List.enumFrom, List.map, List.flatten,
      h1, h2, h3, h4, h5, hp1, hp2,
      List.cons_append, List.nil_append, List.append_nil, List.append_assoc]
  have hlen : textC5.data.length = 5052 := by
    rw [htext]
    simp [List.length_append, len_w10, len_w2500]
  unfold splitOnChars
  rw [pyLen_eq_length, hlen, htext]
  rw [splitOnGo_step1 '\n' rfl _ 5052 5051 rfl]
  rw [splitOnGo_matchP _ 5051 5050 rfl]
  rw [splitOnGo_step1 ' ' rfl _ 5050 5049 rfl]
  rw [splitOnGo_step1 '1' rfl _ 5049 5048 rfl]
  rw [splitOnGo_step1 ' ' rfl _ 5048 5047 rfl]
  rw [splitOnGo_dashes _ 5047 5044 rfl]
  rw [splitOnGo_step1 '\n' rfl _ 5044 5043 rfl]
  rw [splitOnGo_skip_wn 10 (by norm_num) _ _ 5043 5024 (by rw [len_w10])]
  rw [splitOnGo_step1 '\n' rfl _ 5024 5023 rfl]
  rw [splitOnGo_step1 '\n' rfl _ 5023 5022 rfl]
  rw [splitOnGo_matchP _ 5022 5021 rfl]
  rw [splitOnGo_step1 ' ' rfl _ 5021 5020 rfl]
  rw [splitOnGo_step1 '2' rfl _ 5020 5019 rfl]
  rw [splitOnGo_step1 ' ' rfl _ 5019 5018 rfl]
  rw [splitOnGo_dashes _ 5018 5015 rfl]
  rw [splitOnGo_step1 '\n' rfl _ 5015 5014 rfl]
  rw [splitOnGo_skip_wn 2500 (by norm_num) _ _ 5014 15 (by rw [len_w2500])]
  rw [splitOnGo_step1 '\n' rfl _ 15 14 rfl]
  rw [splitOnGo_nil_eq]
  simp [pieceA, pieceB]

theorem splitWsGo_sp_nil (c : Char) (hc : isPySpace c = true) (t : List Char) :
    splitWsGo (c :: t) [] = splitWsGo t [] := by
  simp [splitWsGo, hc]

theorem splitWsGo_sp_acc (c a : Char) (acc : List Char) (hc : isPySpace c = true)
    (t : List Char) :
    splitWsGo (c :: t) (a :: acc) = (a :: acc).reverse :: splitWsGo t [] := by
  simp [splitWsGo, hc]

theorem splitWsGo_ch (c : Char) (hc : isPySpace c = false) (t acc : List Char) :
    splitWsGo (c :: t) acc = splitWsGo t (c :: acc) := by
  simp [splitWsGo, hc]

theorem splitWsGo_w_nl : ∀ n, splitWsGo (w (n + 1) ++ ['\n']) [] =
    List.replicate (n + 1) ['a'] := by
  intro n
  induction n with
  | zero => rfl
  | succ m ih =>
    show splitWsGo (('a' :: ' ' :: w (m + 1)) ++ ['\n']) [] = _
    rw [List.cons_append, List.cons_append]
    rw [splitWsGo_ch 'a' rfl]
    rw [splitWsGo_sp_acc ' ' 'a' [] rfl]
    rw [ih]
    rfl

theorem splitWs_pieceB :
    splitWs pieceB = ['2'] :: ['-', '-', '-'] :: List.replicate 2500 ['a'] := by
  unfold splitWs pieceB
  rw [splitWsGo_sp_nil ' ' rfl]
  rw [splitWsGo_ch '2' rfl]
  rw [splitWsGo_sp_acc ' ' '2' [] rfl]
  rw [splitWsGo_ch '-' rfl]
  rw [splitWsGo_ch '-' rfl]
  rw [splitWsGo_ch '-' rfl]
  rw [splitWsGo_sp_acc '\n' '-' ['-', '-'] rfl]
  have hw := splitWsGo_w_nl 2499
  norm_num at hw
  rw [hw]
  rfl

theorem joinWith_cons_cons (sep x y : List Char) (t : List (List Char)) :
    joinWith sep (x :: y :: t) = x ++ sep ++ joinWith sep (y :: t) := rfl

theorem joinWith_replicate : ∀ n, joinWith [' '] (List.replicate (n + 1) ['a']) = w (n + 1) := by
  intro n
  induction n with
  | zero => rfl
  | succ m ih =>
    rw [List.replicate_succ, List.replicate_succ, joinWith_cons_cons,
      ← List.replicate_succ, ih]
    rfl

theorem dropWhile_head_false : ∀ (l : List Char) (d : Char) (t : List Char),
    l.dropWhile isPySpace = d :: t → isPySpace d = false := by
  intro l
  induction l with
  | nil => intro d t h; cases h
  | cons a l ih =>
    intro d t h
    by_cases ha : isPySpace a
    · rw [List.dropWhile_cons, if_pos ha] at h
      exact ih d t h
    · rw [List.dropWhile_cons, if_neg ha] at h
      cases h
      simpa using ha

theorem pyStrip_ne_nil {l : List Char} (c : Char) (hc : c ∈ l)
    (hns : isPySpace c = false) : (pyStrip l).isEmpty = false := by
  unfold pyStrip
  have h1 : l.dropWhile isPySpace ≠ [] := by
    intro h
    have := List.dropWhile_eq_nil_iff.mp h c hc
    rw [hns] at this
    cases this
  obtain ⟨d, t, hdt⟩ := List.exists_cons_of_ne_nil h1
  have hd : isPySpace d = false := dropWhile_head_false l d t hdt
  have h2 : (l.dropWhile isPySpace).reverse.dropWhile isPySpace ≠ [] := by
    intro h
    have hmem : d ∈ (l.dropWhile isPySpace).reverse := by
      rw [hdt]
      simp
    have := List.dropWhile_eq_nil_iff.mp h d hmem
    rw [hd] at this
    cases this
  cases hre : (l.dropWhile isPySpace).reverse.dropWhile isPySpace with
  | nil => exact absurd hre h2
  | cons x xs =>
    simp

theorem chunksC5_eq :
    chunksC5 =
      [pageTag 1 ++ pyStrip pieceA,
       pageTag 2 ++ pyStrip ('2' :: ' ' :: '-' :: '-' :: '-' :: ' ' :: w 998),
       pageTag 2 ++ pyStrip (w 1000),
       pageTag 2 ++ pyStrip (w 902),
       pageTag 2 ++ pyStrip (w 102)] := by
  have hlA : pyLen pieceA = 28 := by
    rw [pyLen_eq_length]
    simp only [pieceA, List.length_cons, List.length_append, len_w10,
      List.length_nil]
  have hlB : pyLen pieceB = 5007 := by
    rw [pyLen_eq_length]
    simp only [pieceB, List.length_cons, List.length_append, len_w2500,
      List.length_nil]
  have hlW : pyLen (['2'] :: ['-', '-', '-'] :: List.replicate 2500 ['a'] :
      List (List Char)) = 2502 := by
    rw [pyLen_eq_length]
    simp only [List.length_cons, List.length_replicate]
  have hrange : pyRange 2502 800 = [0, 800, 1600, 2400] := by decide
  have hc0 : ((['2'] :: ['-', '-', '-'] :: List.replicate 2500 ['a'] :
        List (List Char)).drop 0).take 1000 =
      ['2'] :: ['-', '-', '-'] :: List.replicate 998 ['a'] := by
    rw [List.drop_zero]
    rw [show (1000 : Nat) = 999 + 1 from rfl, List.take_succ_cons,
        show (999 : Nat) = 998 + 1 from rfl, List.take_succ_cons,
        List.take_replicate]
    norm_num
  have hc800 : ((['2'] :: ['-', '-', '-'] :: List.replicate 2500 ['a'] :
        List (List Char)).drop 800).take 1000 = List.replicate 1000 ['a'] := by
    rw [show (800 : Nat) = 799 + 1 from rfl, List.drop_succ_cons,
        show (799 : Nat) = 798 + 1 from rfl, List.drop_succ_cons,
        List.drop_replicate, List.take_replicate]
    norm_num
  have hc1600 : ((['2'] :: ['-', '-', '-'] :: List.replicate 2500 ['a'] :
        List (List Char)).drop 1600).take 1000 = List.replicate 902 ['a'] := by
    rw [show (1600 : Nat) = 1599 + 1 from rfl, List.drop_succ_cons,
        show (1599 : Nat) = 1598 + 1 from rfl, List.drop_succ_cons,
        List.drop_replicate, List.take_replicate]
    norm_num
  have hc2400 : ((['2'] :: ['-', '-', '-'] :: List.replicate 2500 ['a'] :
        List (List Char)).drop 2400).take 1000 = List.replicate 102 ['a'] := by
    rw [show (2400 : Nat) = 2399 + 1 from rfl, List.drop_succ_cons,
        show (2399 : Nat) = 2398 + 1 from rfl, List.drop_succ_cons,
        List.drop_replicate, List.take_replicate]
    norm_num
  have hj0 : joinWith [' '] (['2'] :: ['-', '-', '-'] :: List.replicate 998 ['a']) =
      '2' :: ' ' :: '-' :: '-' :: '-' :: ' ' :: w 998 := by
    rw [joinWith_cons_cons, show (998 : Nat) = 997 + 1 from rfl, List.replicate_succ,
        joinWith_cons_cons, ← List.replicate_succ, joinWith_replicate]
    simp
  have hj1000 : joinWith [' '] (List.replicate 1000 ['a']) = w 1000 := by
    have h := joinWith_replicate 999
    norm_num at h
    exact h
  have hj902 : joinWith [' '] (List.replicate 902 ['a']) = w 902 := by
    have h := joinWith_replicate 901
    norm_num at h
    exact h
  have hj102 : joinWith [' '] (List.replicate 102 ['a']) = w 102 := by
    have h := joinWith_replicate 101
    norm_num at h
    exact h
  have hsA : (pyStrip pieceA).isEmpty = false :=
    pyStrip_ne_nil '1' (by simp [pieceA]) rfl
  have hs0 : (pyStrip ('2' :: ' ' :: '-' :: '-' :: '-' :: ' ' :: w 998)).isEmpty = false :=
    pyStrip_ne_nil '2' (by simp) rfl
  have hmem1000 : 'a' ∈ w 1000 := by
    obtain ⟨t, ht⟩ := w_head 999
    norm_num at ht
    rw [ht]
    simp
  have hmem902 : 'a' ∈ w 902 := by
    obtain ⟨t, ht⟩ := w_head 901
    norm_num at ht
    rw [ht]
    simp
  have hmem102 : 'a' ∈ w 102 := by
    obtain ⟨t, ht⟩ := w_head 101
    norm_num at ht
    rw [ht]
    simp
  have hs1000 : (pyStrip (w 1000)).isEmpty = false := pyStrip_ne_nil 'a' hmem1000 rfl
  have hs902 : (pyStrip (w 902)).isEmpty = false := pyStrip_ne_nil 'a' hmem902 rfl
  have hs102 : (pyStrip (w 102)).isEmpty = false := pyStrip_ne_nil 'a' hmem102 rfl
  unfold chunksC5 get_text_chunks
  rw [splitOn_textC5]
  dsimp only
  rw [show (([['\n'], pieceA, pieceB] : List (List Char)).drop 1) = [pieceA, pieceB] from rfl]
  rw [show (([pieceA, pieceB] : List (List Char)).enum) = [(0, pieceA), (1, pieceB)] from rfl]
  simp only [List.flatMap_cons, List.flatMap_nil, List.append_nil]
  simp only [hlA, hlB, splitWs_pieceB, hlW, hrange]
  simp only [List.flatMap_cons, List.flatMap_nil, List.append_nil]
  simp only [hc0, hc800, hc1600, hc2400, hj0, hj1000, hj902, hj102]
  simp only [hsA, hs0, hs1000, hs902, hs102]
  norm_num

theorem isPrefixOf_append_self : ∀ (l x : List Char), l.isPrefixOf (l ++ x) = true := by
  intro l x
  induction l with
  | nil => cases x <;> rfl
  | cons a s ih => simp [List.isPrefixOf, ih]

theorem tag1_of_tag2 (X : List Char) : (pageTag 1).isPrefixOf (pageTag 2 ++ X) = false := rfl

theorem tag2_of_tag1 (X : List Char) : (pageTag 2).isPrefixOf (pageTag 1 ++ X) = false := rfl

theorem chunksC5_count_page1 : chunkCountForPage chunksC5 1 = 1 := by
  rw [chunkCountForPage, chunksC5_eq]
  rw [pyLen_eq_length]
  simp only [List.filter_cons, isPrefixOf_append_self, tag1_of_tag2, List.filter_nil,
    if_true, if_false, Bool.false_eq_true, List.length_cons, List.length_nil]

theorem chunksC5_count_page2 : chunkCountForPage chunksC5 2 = 4 := by
  rw [chunkCountForPage, chunksC5_eq]
  rw [pyLen_eq_length]
  simp only [List.filter_cons, isPrefixOf_append_self, tag2_of_tag1, List.filter_nil,
    if_true, if_false, Bool.false_eq_true, List.length_cons, List.length_nil]

/-- C5 (counterexample): in the two-page scenario document (page 1 ten words,
page 2 two-thousand-five-hundred words, all single-letter, single-space
separated; chunk_size 1000, overlap 200) the code does not emit 3 chunks for
page 2, so the claimed pair (1 chunk, 3 chunks) fails. -/
theorem chunking_scenario_not_three_chunks :
    ¬ (chunkCountForPage chunksC5 1 = 1 ∧ chunkCountForPage chunksC5 2 = 3) := by
  intro h
  rw [chunksC5_count_page2] at h
  exact absurd h.2 (by decide)

/-- C5 (amended): for the same scenario document, the chunker emits exactly 1
chunk for page 1 and exactly 4 chunks for page 2 — the page loop strides
through the whitespace-separated tokens of the page split (2502 tokens: the
page-marker remnants "2", "---" plus the 2500 words) in steps of
chunk_size − overlap = 800, yielding ⌈2502/800⌉ = 4 chunks. -/
theorem chunking_scenario_counts :
    chunkCountForPage chunksC5 1 = 1 ∧ chunkCountForPage chunksC5 2 = 4 :=
  ⟨chunksC5_count_page1, chunksC5_count_page2⟩
